import Mathlib

/-!
Verification of the NEPHRA / HydrateAI repository.

This file shallowly embeds the parts of the code the claims are about:
* the toast state reducer and its removal queue (the `useToast` hook module),
* the leaderboard mock data, the achievement generator and `getHydrationRank`
  (`src/lib/leaderboard-data.ts` / `src/lib/utils.ts`),
* the dashboard client's simulation tick and `handleConnect`
  (`src/app/dashboard/dashboard-client.tsx`),
* the `getHydrationRecommendationAction` server action (`src/app/profile/actions.ts`).

JavaScript numbers are modelled as `ℚ` (or `ℤ` where the code only ever holds
integers); `undefined`-able values as `Option`; thrown exceptions as `Except`.
-/

namespace Nephra

/-! ## Toast reducer (the `useToast` hook module) -/

/-- `const TOAST_LIMIT = 1`. -/
def TOAST_LIMIT : Nat := 1

/-- `const TOAST_REMOVE_DELAY = 1000000`. -/
def TOAST_REMOVE_DELAY : Nat := 1000000

/-- A `ToasterToast`: the `id` plus the content fields the reducer touches.
`isOpen` models the optional `open` field of `ToastProps` (`open` is a Lean
keyword); `none` is JavaScript `undefined`. -/
structure ToasterToast where
  id : String
  title : Option String := none
  description : Option String := none
  isOpen : Option Bool := none
deriving DecidableEq, Repr

/-- The reducer's state: `interface State { toasts: ToasterToast[] }`. -/
structure ToastState where
  toasts : List ToasterToast
deriving DecidableEq, Repr

/-- A `Partial<ToasterToast>` as dispatched by `UPDATE_TOAST`: every field may
be absent. -/
structure ToastPatch where
  id : Option String := none
  title : Option String := none
  description : Option String := none
  isOpen : Option Bool := none
deriving DecidableEq, Repr

/-- The JavaScript spread `{ ...t, ...p }`: fields present in the patch
override those of the toast. -/
def applyPatch (t : ToasterToast) (p : ToastPatch) : ToasterToast :=
  { id := p.id.getD t.id,
    title := if p.title.isSome then p.title else t.title,
    description := if p.description.isSome then p.description else t.description,
    isOpen := if p.isOpen.isSome then p.isOpen else t.isOpen }

/-- The `Action` union dispatched to the reducer. An optional `toastId`
(`toastId?: string`) is an `Option String`. -/
inductive ToastAction where
  | addToast (toast : ToasterToast)
  | updateToast (toast : ToastPatch)
  | dismissToast (toastId : Option String)
  | removeToast (toastId : Option String)
deriving DecidableEq, Repr

/-- The toast `reducer`:
* `ADD_TOAST`: `[action.toast, ...state.toasts].slice(0, TOAST_LIMIT)`;
* `UPDATE_TOAST`: map, patching the toast whose `id` equals `action.toast.id`
  (`t.id === action.toast.id` is false whenever the patch carries no id);
* `DISMISS_TOAST`: map, setting `open: false` on the toast matching
  `t.id === toastId || toastId === undefined`;
* `REMOVE_TOAST`: empty the list when `toastId === undefined`, else
  `filter((t) => t.id !== action.toastId)`. -/
def reducer (state : ToastState) (action : ToastAction) : ToastState :=
  match action with
  | .addToast t =>
      { state with toasts := (t :: state.toasts).take TOAST_LIMIT }
  | .updateToast p =>
      { state with toasts := state.toasts.map (fun t =>
          if p.id = some t.id then applyPatch t p else t) }
  | .dismissToast toastId =>
      { state with toasts := state.toasts.map (fun t =>
          if toastId = some t.id ∨ toastId = none then
            { t with isOpen := some false }
          else t) }
  | .removeToast toastId =>
      match toastId with
      | none => { state with toasts := [] }
      | some tid => { state with toasts := state.toasts.filter (fun t => t.id ≠ tid) }

/-- An entry of the `toastTimeouts` map: the toast id together with the
absolute time at which the scheduled `setTimeout` callback will dispatch
`REMOVE_TOAST` for it. -/
structure TimeoutEntry where
  toastId : String
  fireAt : Nat
deriving DecidableEq, Repr

/-- `addToRemoveQueue`: if the id already has a pending timeout, do nothing;
otherwise schedule a `REMOVE_TOAST` dispatch `TOAST_REMOVE_DELAY` after the
current time `now`. -/
def addToRemoveQueue (timeouts : List TimeoutEntry) (now : Nat)
    (toastId : String) : List TimeoutEntry :=
  if timeouts.any (fun e => e.toastId == toastId) then timeouts
  else timeouts ++ [⟨toastId, now + TOAST_REMOVE_DELAY⟩]

/-- JavaScript truthiness of an optional string (`if (toastId)`): `undefined`
and the empty string are falsy. -/
def jsTruthy : Option String → Bool
  | none => false
  | some s => s ≠ ""

/-- The side effect of the reducer's `DISMISS_TOAST` case on the timeout map:
`if (toastId) { addToRemoveQueue(toastId) } else { state.toasts.forEach(...) }`. -/
def dismissTimeouts (state : ToastState) (timeouts : List TimeoutEntry)
    (now : Nat) (toastId : Option String) : List TimeoutEntry :=
  if jsTruthy toastId then addToRemoveQueue timeouts now (toastId.getD "")
  else state.toasts.foldl (fun acc t => addToRemoveQueue acc now t.id) timeouts

/-! ### Claims C1, C10 -/

/-- C1: the reducer limits visible toasts to one. If the state holds at most
`TOAST_LIMIT` (= 1) toasts then so does the state returned for any action,
and after any `ADD_TOAST` the list is exactly the newly added toast. -/
theorem reducer_respects_toast_limit (s : ToastState) (a : ToastAction)
    (h : s.toasts.length ≤ TOAST_LIMIT) :
    (reducer s a).toasts.length ≤ TOAST_LIMIT ∧
    (∀ t, a = .addToast t → (reducer s a).toasts = [t]) := by
  constructor
  · cases a with
    | addToast t =>
        simp [reducer, TOAST_LIMIT]
    | updateToast p =>
        simpa [reducer] using h
    | dismissToast tid =>
        simpa [reducer] using h
    | removeToast tid =>
        cases tid with
        | none => simp [reducer]
        | some tid =>
            exact le_trans (by simpa [reducer] using
              (List.length_filter_le (fun t => t.id ≠ tid) s.toasts)) h
  · intro t ht
    subst ht
    simp [reducer, TOAST_LIMIT]

/-- C1 witness: a concrete state with one toast, dismissed: still one toast;
adding a toast yields exactly the new toast. -/
theorem reducer_respects_toast_limit_witness :
    (reducer ⟨[⟨"1", none, none, some true⟩]⟩
        (.addToast ⟨"2", none, none, some true⟩)).toasts =
      [⟨"2", none, none, some true⟩] :=
  (reducer_respects_toast_limit ⟨[⟨"1", none, none, some true⟩]⟩
      (.addToast ⟨"2", none, none, some true⟩) (by decide)).2
    ⟨"2", none, none, some true⟩ rfl

/-- C10: `REMOVE_TOAST` with `toastId === undefined` empties the list; with a
given id it removes exactly the toasts carrying that id (the result is a
sublist of the original, a toast belongs to it iff it belonged before and its
id differs from the target). -/
theorem remove_toast_cases (s : ToastState) (tid : String) :
    (reducer s (.removeToast none)).toasts = [] ∧
    (reducer s (.removeToast (some tid))).toasts.Sublist s.toasts ∧
    (∀ t, t ∈ (reducer s (.removeToast (some tid))).toasts ↔
      (t ∈ s.toasts ∧ t.id ≠ tid)) := by
  refine ⟨rfl, ?_, ?_⟩
  · exact List.filter_sublist (l := s.toasts)
  · intro t
    simp [reducer]

/-! ### Claim C2 -/

/-- The pointwise relation `DISMISS_TOAST` establishes between an input toast
and the corresponding output toast: id and content are untouched; a matched
toast has its `open` field set to `false`; an unmatched toast is unchanged. -/
def DismissRel (toastId : Option String) (t t' : ToasterToast) : Prop :=
  t'.id = t.id ∧ t'.title = t.title ∧ t'.description = t.description ∧
  ((toastId = some t.id ∨ toastId = none) → t'.isOpen = some false) ∧
  (¬(toastId = some t.id ∨ toastId = none) → t' = t)

/-- C2: dismissal queues removal instead of removing. `DISMISS_TOAST` keeps
the toasts list's length, and pointwise only flips the `open` field (to
`false`) of the targeted toast — of every toast when no `toastId` is given —
while `addToRemoveQueue` schedules the `REMOVE_TOAST` dispatch for a
(non-empty, not already queued) target id at `TOAST_REMOVE_DELAY`
milliseconds after the dismissal. -/
theorem dismiss_queues_removal (s : ToastState) (timeouts : List TimeoutEntry)
    (now : Nat) (toastId : Option String) :
    (reducer s (.dismissToast toastId)).toasts.length = s.toasts.length ∧
    List.Forall₂ (DismissRel toastId) s.toasts
      (reducer s (.dismissToast toastId)).toasts ∧
    (∀ tid, toastId = some tid → tid ≠ "" →
      tid ∉ timeouts.map TimeoutEntry.toastId →
      dismissTimeouts s timeouts now toastId =
        timeouts ++ [⟨tid, now + TOAST_REMOVE_DELAY⟩]) := by
  refine ⟨by simp [reducer], ?_, ?_⟩
  · show List.Forall₂ (DismissRel toastId) s.toasts (s.toasts.map _)
    induction s.toasts with
    | nil => exact List.Forall₂.nil
    | cons t ts ih =>
        refine List.Forall₂.cons ?_ ih
        by_cases h : toastId = some t.id ∨ toastId = none
        · simp only [if_pos h]
          exact ⟨rfl, rfl, rfl, fun _ => rfl, fun hn => absurd h hn⟩
        · simp only [if_neg h]
          exact ⟨rfl, rfl, rfl, fun hm => absurd hm h, fun _ => rfl⟩
  · intro tid htid hne hnot
    subst htid
    have htruthy : jsTruthy (some tid) = true := by
      simpa [jsTruthy] using hne
    have hany : timeouts.any (fun e => e.toastId == tid) = false := by
      simp only [List.any_eq_false, beq_iff_eq]
      intro e he hcontra
      exact hnot (hcontra ▸ List.mem_map_of_mem TimeoutEntry.toastId he)
    simp [dismissTimeouts, htruthy, addToRemoveQueue, hany]

/-- C2 witness: dismissing the sole open toast `"1"` at time 0 with an empty
timeout map schedules its removal at time `TOAST_REMOVE_DELAY`. -/
theorem dismiss_queues_removal_witness :
    dismissTimeouts ⟨[⟨"1", none, none, some true⟩]⟩ [] 0 (some "1") =
      [⟨"1", TOAST_REMOVE_DELAY⟩] := by
  have h := (dismiss_queues_removal ⟨[⟨"1", none, none, some true⟩]⟩ [] 0
    (some "1")).2.2 "1" rfl (by decide) (by simp)
  simpa using h

/-! ## Hydration rank (`getHydrationRank` in `src/lib/utils.ts`) -/

/-- An entry of the `ranks` table: the level required and the rank's name. -/
structure RankEntry where
  level : ℚ
  name : String
deriving DecidableEq, Repr, Inhabited

/-- The fixed `ranks` table of `getHydrationRank`. -/
def ranks : List RankEntry :=
  [⟨1, "Trainee"⟩, ⟨5, "Scout"⟩, ⟨10, "Adept"⟩, ⟨15, "Hydrator"⟩,
   ⟨20, "Hydro-Hero"⟩, ⟨25, "Aqua-Knight"⟩, ⟨30, "Master"⟩,
   ⟨40, "Hydration Lord"⟩, ⟨50, "Poseidon\x27s Chosen"⟩]

/-- The return value of `getHydrationRank`. -/
structure RankInfo where
  rank : String
  nextRank : String
  progress : ℚ
deriving DecidableEq, Repr

/-- The `for ... of` loop of `getHydrationRank` with its `break`: walk the
table, updating `currentRank` while `level >= rank.level`, stopping at the
first entry whose requirement exceeds `level`. -/
def findCurrentRank (level : ℚ) : List RankEntry → RankEntry → RankEntry
  | [], cur => cur
  | r :: rs, cur => if level ≥ r.level then findCurrentRank level rs r else cur

/-- The tail of `getHydrationRank` once `currentRank` is known: find the entry
after it (`ranks[currentRankIndex + 1]`, where `findIdx` models `findIndex`
— the name is always found, so the two agree — and `get?` is the
possibly-`undefined` array access), and compute the progress percentage. -/
def rankResult (level : ℚ) (currentRank : RankEntry) : RankInfo :=
  match ranks.get? (ranks.findIdx (fun r => r.name == currentRank.name) + 1) with
  | none => ⟨currentRank.name, "Max Rank", 100⟩
  | some nextRank =>
      ⟨currentRank.name, nextRank.name,
        ((level - currentRank.level) / (nextRank.level - currentRank.level)) * 100⟩

/-- `getHydrationRank`: the loop starting from `ranks[0]` followed by the
next-rank lookup and progress computation. -/
def getHydrationRank (level : ℚ) : RankInfo :=
  rankResult level (findCurrentRank level ranks ranks.headI)

set_option maxHeartbeats 1000000 in
/-- Closed form of the `currentRank` loop by level interval (helper lemma). -/
lemma findCurrentRank_val (level : ℚ) :
    findCurrentRank level ranks ranks.headI =
      if 50 ≤ level then ⟨50, "Poseidon\x27s Chosen"⟩
      else if 40 ≤ level then ⟨40, "Hydration Lord"⟩
      else if 30 ≤ level then ⟨30, "Master"⟩
      else if 25 ≤ level then ⟨25, "Aqua-Knight"⟩
      else if 20 ≤ level then ⟨20, "Hydro-Hero"⟩
      else if 15 ≤ level then ⟨15, "Hydrator"⟩
      else if 10 ≤ level then ⟨10, "Adept"⟩
      else if 5 ≤ level then ⟨5, "Scout"⟩
      else ⟨1, "Trainee"⟩ := by
  simp only [ranks, List.headI, findCurrentRank, ge_iff_le]
  split_ifs <;> first | rfl | (exfalso; linarith)

/-- Closed form of `getHydrationRank` by level interval (helper lemma). -/
lemma getHydrationRank_eq (level : ℚ) :
    getHydrationRank level =
      if 50 ≤ level then ⟨"Poseidon\x27s Chosen", "Max Rank", 100⟩
      else if 40 ≤ level then
        ⟨"Hydration Lord", "Poseidon\x27s Chosen", ((level - 40) / (50 - 40)) * 100⟩
      else if 30 ≤ level then
        ⟨"Master", "Hydration Lord", ((level - 30) / (40 - 30)) * 100⟩
      else if 25 ≤ level then
        ⟨"Aqua-Knight", "Master", ((level - 25) / (30 - 25)) * 100⟩
      else if 20 ≤ level then
        ⟨"Hydro-Hero", "Aqua-Knight", ((level - 20) / (25 - 20)) * 100⟩
      else if 15 ≤ level then
        ⟨"Hydrator", "Hydro-Hero", ((level - 15) / (20 - 15)) * 100⟩
      else if 10 ≤ level then
        ⟨"Adept", "Hydrator", ((level - 10) / (15 - 10)) * 100⟩
      else if 5 ≤ level then
        ⟨"Scout", "Adept", ((level - 5) / (10 - 5)) * 100⟩
      else ⟨"Trainee", "Scout", ((level - 1) / (5 - 1)) * 100⟩ := by
  rw [getHydrationRank, findCurrentRank_val]
  split_ifs <;> rfl

/-! ### Claims C3, C9 -/

/-- The rank table as the spec words it: nine (threshold, name) entries. -/
def rankTableSpec : List (ℚ × String) :=
  [(1, "Trainee"), (5, "Scout"), (10, "Adept"), (15, "Hydrator"),
   (20, "Hydro-Hero"), (25, "Aqua-Knight"), (30, "Master"),
   (40, "Hydration Lord"), (50, "Poseidon\x27s Chosen")]

/-- The spec's description of the lookup: the name of the entry with the
largest threshold not exceeding the level (`none` when no threshold does). -/
def specRankFor (level : ℚ) : Option String :=
  ((rankTableSpec.filter (fun p => decide (p.1 ≤ level))).argmax Prod.fst).map
    Prod.snd

/-- C3: for every level for which some table threshold applies (equivalently
`1 ≤ level`), the `rank` field returned by `getHydrationRank` is the name of
the entry with the largest threshold not exceeding the level in the fixed
nine-entry table. (`getHydrationRank` is a Lean function of `level` alone, so
it is pure by construction.) -/
theorem rank_lookup_matches_table (level : ℚ) (h : 1 ≤ level) :
    specRankFor level = some (getHydrationRank level).rank := by
  rw [getHydrationRank_eq]
  have d1 : decide ((1:ℚ) ≤ level) = true := decide_eq_true h
  rcases le_or_lt 50 level with h50 | h50
  · rw [if_pos h50]
    show specRankFor level = some "Poseidon\x27s Chosen"
    have e : rankTableSpec.filter (fun p => decide (p.1 ≤ level)) = rankTableSpec := by
      simp [rankTableSpec, List.filter, d1,
        decide_eq_true (show (5:ℚ) ≤ level by linarith),
        decide_eq_true (show (10:ℚ) ≤ level by linarith),
        decide_eq_true (show (15:ℚ) ≤ level by linarith),
        decide_eq_true (show (20:ℚ) ≤ level by linarith),
        decide_eq_true (show (25:ℚ) ≤ level by linarith),
        decide_eq_true (show (30:ℚ) ≤ level by linarith),
        decide_eq_true (show (40:ℚ) ≤ level by linarith),
        decide_eq_true (show (50:ℚ) ≤ level by linarith)]
    rw [specRankFor, e]; decide
  rw [if_neg (by linarith)]
  rcases le_or_lt 40 level with h40 | h40
  · rw [if_pos h40]
    show specRankFor level = some "Hydration Lord"
    have e : rankTableSpec.filter (fun p => decide (p.1 ≤ level)) =
        [(1, "Trainee"), (5, "Scout"), (10, "Adept"), (15, "Hydrator"),
         (20, "Hydro-Hero"), (25, "Aqua-Knight"), (30, "Master"),
         (40, "Hydration Lord")] := by
      simp [rankTableSpec, List.filter, d1,
        decide_eq_true (show (5:ℚ) ≤ level by linarith),
        decide_eq_true (show (10:ℚ) ≤ level by linarith),
        decide_eq_true (show (15:ℚ) ≤ level by linarith),
        decide_eq_true (show (20:ℚ) ≤ level by linarith),
        decide_eq_true (show (25:ℚ) ≤ level by linarith),
        decide_eq_true (show (30:ℚ) ≤ level by linarith),
        decide_eq_true (show (40:ℚ) ≤ level by linarith),
        decide_eq_false (show ¬ (50:ℚ) ≤ level by linarith)]
    rw [specRankFor, e]; decide
  rw [if_neg (by linarith)]
  rcases le_or_lt 30 level with h30 | h30
  · rw [if_pos h30]
    show specRankFor level = some "Master"
    have e : rankTableSpec.filter (fun p => decide (p.1 ≤ level)) =
        [(1, "Trainee"), (5, "Scout"), (10, "Adept"), (15, "Hydrator"),
         (20, "Hydro-Hero"), (25, "Aqua-Knight"), (30, "Master")] := by
      simp [rankTableSpec, List.filter, d1,
        decide_eq_true (show (5:ℚ) ≤ level by linarith),
        decide_eq_true (show (10:ℚ) ≤ level by linarith),
        decide_eq_true (show (15:ℚ) ≤ level by linarith),
        decide_eq_true (show (20:ℚ) ≤ level by linarith),
        decide_eq_true (show (25:ℚ) ≤ level by linarith),
        decide_eq_true (show (30:ℚ) ≤ level by linarith),
        decide_eq_false (show ¬ (40:ℚ) ≤ level by linarith),
        decide_eq_false (show ¬ (50:ℚ) ≤ level by linarith)]
    rw [specRankFor, e]; decide
  rw [if_neg (by linarith)]
  rcases le_or_lt 25 level with h25 | h25
  · rw [if_pos h25]
    show specRankFor level = some "Aqua-Knight"
    have e : rankTableSpec.filter (fun p => decide (p.1 ≤ level)) =
        [(1, "Trainee"), (5, "Scout"), (10, "Adept"), (15, "Hydrator"),
         (20, "Hydro-Hero"), (25, "Aqua-Knight")] := by
      simp [rankTableSpec, List.filter, d1,
        decide_eq_true (show (5:ℚ) ≤ level by linarith),
        decide_eq_true (show (10:ℚ) ≤ level by linarith),
        decide_eq_true (show (15:ℚ) ≤ level by linarith),
        decide_eq_true (show (20:ℚ) ≤ level by linarith),
        decide_eq_true (show (25:ℚ) ≤ level by linarith),
        decide_eq_false (show ¬ (30:ℚ) ≤ level by linarith),
        decide_eq_false (show ¬ (40:ℚ) ≤ level by linarith),
        decide_eq_false (show ¬ (50:ℚ) ≤ level by linarith)]
    rw [specRankFor, e]; decide
  rw [if_neg (by linarith)]
  rcases le_or_lt 20 level with h20 | h20
  · rw [if_pos h20]
    show specRankFor level = some "Hydro-Hero"
    have e : rankTableSpec.filter (fun p => decide (p.1 ≤ level)) =
        [(1, "Trainee"), (5, "Scout"), (10, "Adept"), (15, "Hydrator"),
         (20, "Hydro-Hero")] := by
      simp [rankTableSpec, List.filter, d1,
        decide_eq_true (show (5:ℚ) ≤ level by linarith),
        decide_eq_true (show (10:ℚ) ≤ level by linarith),
        decide_eq_true (show (15:ℚ) ≤ level by linarith),
        decide_eq_true (show (20:ℚ) ≤ level by linarith),
        decide_eq_false (show ¬ (25:ℚ) ≤ level by linarith),
        decide_eq_false (show ¬ (30:ℚ) ≤ level by linarith),
        decide_eq_false (show ¬ (40:ℚ) ≤ level by linarith),
        decide_eq_false (show ¬ (50:ℚ) ≤ level by linarith)]
    rw [specRankFor, e]; decide
  rw [if_neg (by linarith)]
  rcases le_or_lt 15 level with h15 | h15
  · rw [if_pos h15]
    show specRankFor level = some "Hydrator"
    have e : rankTableSpec.filter (fun p => decide (p.1 ≤ level)) =
        [(1, "Trainee"), (5, "Scout"), (10, "Adept"), (15, "Hydrator")] := by
      simp [rankTableSpec, List.filter, d1,
        decide_eq_true (show (5:ℚ) ≤ level by linarith),
        decide_eq_true (show (10:ℚ) ≤ level by linarith),
        decide_eq_true (show (15:ℚ) ≤ level by linarith),
        decide_eq_false (show ¬ (20:ℚ) ≤ level by linarith),
        decide_eq_false (show ¬ (25:ℚ) ≤ level by linarith),
        decide_eq_false (show ¬ (30:ℚ) ≤ level by linarith),
        decide_eq_false (show ¬ (40:ℚ) ≤ level by linarith),
        decide_eq_false (show ¬ (50:ℚ) ≤ level by linarith)]
    rw [specRankFor, e]; decide
  rw [if_neg (by linarith)]
  rcases le_or_lt 10 level with h10 | h10
  · rw [if_pos h10]
    show specRankFor level = some "Adept"
    have e : rankTableSpec.filter (fun p => decide (p.1 ≤ level)) =
        [(1, "Trainee"), (5, "Scout"), (10, "Adept")] := by
      simp [rankTableSpec, List.filter, d1,
        decide_eq_true (show (5:ℚ) ≤ level by linarith),
        decide_eq_true (show (10:ℚ) ≤ level by linarith),
        decide_eq_false (show ¬ (15:ℚ) ≤ level by linarith),
        decide_eq_false (show ¬ (20:ℚ) ≤ level by linarith),
        decide_eq_false (show ¬ (25:ℚ) ≤ level by linarith),
        decide_eq_false (show ¬ (30:ℚ) ≤ level by linarith),
        decide_eq_false (show ¬ (40:ℚ) ≤ level by linarith),
        decide_eq_false (show ¬ (50:ℚ) ≤ level by linarith)]
    rw [specRankFor, e]; decide
  rw [if_neg (by linarith)]
  rcases le_or_lt 5 level with h5 | h5
  · rw [if_pos h5]
    show specRankFor level = some "Scout"
    have e : rankTableSpec.filter (fun p => decide (p.1 ≤ level)) =
        [(1, "Trainee"), (5, "Scout")] := by
      simp [rankTableSpec, List.filter, d1,
        decide_eq_true (show (5:ℚ) ≤ level by linarith),
        decide_eq_false (show ¬ (10:ℚ) ≤ level by linarith),
        decide_eq_false (show ¬ (15:ℚ) ≤ level by linarith),
        decide_eq_false (show ¬ (20:ℚ) ≤ level by linarith),
        decide_eq_false (show ¬ (25:ℚ) ≤ level by linarith),
        decide_eq_false (show ¬ (30:ℚ) ≤ level by linarith),
        decide_eq_false (show ¬ (40:ℚ) ≤ level by linarith),
        decide_eq_false (show ¬ (50:ℚ) ≤ level by linarith)]
    rw [specRankFor, e]; decide
  rw [if_neg (by linarith)]
  show specRankFor level = some "Trainee"
  have e : rankTableSpec.filter (fun p => decide (p.1 ≤ level)) =
      [(1, "Trainee")] := by
    simp [rankTableSpec, List.filter, d1,
      decide_eq_false (show ¬ (5:ℚ) ≤ level by linarith),
      decide_eq_false (show ¬ (10:ℚ) ≤ level by linarith),
      decide_eq_false (show ¬ (15:ℚ) ≤ level by linarith),
      decide_eq_false (show ¬ (20:ℚ) ≤ level by linarith),
      decide_eq_false (show ¬ (25:ℚ) ≤ level by linarith),
      decide_eq_false (show ¬ (30:ℚ) ≤ level by linarith),
      decide_eq_false (show ¬ (40:ℚ) ≤ level by linarith),
      decide_eq_false (show ¬ (50:ℚ) ≤ level by linarith)]
  rw [specRankFor, e]; decide

/-- C3 witness: at level 17 the table lookup and `getHydrationRank` agree. -/
theorem rank_lookup_matches_table_witness :
    (1:ℚ) ≤ 17 ∧ specRankFor 17 = some (getHydrationRank 17).rank :=
  ⟨by norm_num, rank_lookup_matches_table 17 (by norm_num)⟩

/-- C9: `getHydrationRank` is total, clamps at the top but not at the bottom:
at or above level 50 it returns rank `Poseidon's Chosen`, next rank
`Max Rank` and progress exactly 100; strictly below level 1 it returns rank
`Trainee` with the strictly negative progress `(level - 1) / 4 * 100`. -/
theorem rank_extremes (level : ℚ) :
    (50 ≤ level →
      getHydrationRank level = ⟨"Poseidon\x27s Chosen", "Max Rank", 100⟩) ∧
    (level < 1 →
      (getHydrationRank level).rank = "Trainee" ∧
      (getHydrationRank level).progress = (level - 1) / 4 * 100 ∧
      (getHydrationRank level).progress < 0) := by
  rw [getHydrationRank_eq]
  constructor
  · intro h
    rw [if_pos h]
  · intro h
    rw [if_neg (by linarith), if_neg (by linarith), if_neg (by linarith),
      if_neg (by linarith), if_neg (by linarith), if_neg (by linarith),
      if_neg (by linarith), if_neg (by linarith)]
    refine ⟨rfl, by norm_num, ?_⟩
    show (level - 1) / (5 - 1) * 100 < 0
    have e : (level - 1) / (5 - 1) * 100 = (level - 1) * 25 := by ring
    rw [e]
    nlinarith

/-- C9 witness: concrete evaluations at levels 60 and 0. -/
theorem rank_extremes_witness :
    getHydrationRank 60 = ⟨"Poseidon\x27s Chosen", "Max Rank", 100⟩ ∧
    ((getHydrationRank 0).rank = "Trainee" ∧
     (getHydrationRank 0).progress = (0 - 1) / 4 * 100 ∧
     (getHydrationRank 0).progress < 0) :=
  ⟨(rank_extremes 60).1 (by norm_num), (rank_extremes 0).2 (by norm_num)⟩

/-! ## Dashboard client (`src/app/dashboard/dashboard-client.tsx`) -/

/-- The `hydration` state: `{ current, goal }`. -/
structure Hydration where
  current : ℤ
  goal : ℤ
deriving DecidableEq, Repr

/-- The component-local state of `DashboardClient` that the simulation and
the handlers mutate. -/
structure DashState where
  isConnected : Bool
  hydration : Hydration
  bottleLevel : ℤ
  streak : ℤ
  level : ℤ
  xp : ℤ
  drops : ℤ
  levelUpInfo : Option ℤ
deriving DecidableEq, Repr

/-- One run of the simulation `setInterval` callback with the simulated
amount `drank` (the code draws `50 * (Math.floor(Math.random() * 3) + 1)`,
i.e. 50, 100 or 150; here it is a parameter). `xpToNextLevel` is the derived
value `level * 100` captured at render time; on level-up XP wraps by that
amount and `levelUpInfo` records the new level. Hydration is clamped to the
goal with `Math.min`, the bottle level to zero with `Math.max`, and drops
grow by `Math.floor(drank / 10)` (`Int.fdiv` is JavaScript's `Math.floor`
of the quotient). -/
def tick (s : DashState) (drank : ℤ) : DashState :=
  if drank > 0 then
    let xpToNextLevel := s.level * 100
    let newXp := s.xp + drank
    let s' :=
      if newXp ≥ xpToNextLevel then
        { s with level := s.level + 1, levelUpInfo := some (s.level + 1),
                 xp := newXp - xpToNextLevel }
      else { s with xp := newXp }
    { s' with
        hydration := { s'.hydration with
          current := min (s'.hydration.current + drank) s'.hydration.goal },
        bottleLevel := max 0 (s'.bottleLevel - drank),
        drops := s'.drops + Int.fdiv drank 10 }
  else s

/-- A call to the `toast` function (title and description). -/
structure ToastCall where
  title : String
  description : String
deriving DecidableEq, Repr

/-- `handleConnect`: set `isConnected`, show one toast, and reset the
counters to the fixed demo-session start values. -/
def handleConnect (s : DashState) : DashState × List ToastCall :=
  ({ s with
      isConnected := true,
      hydration := ⟨0, 2500⟩,
      bottleLevel := 750,
      streak := 5,
      level := 1,
      xp := 0,
      drops := 0 },
   [⟨"NEPHRA Connected", "Ready to track your hydration."⟩])

/-! ### Claims C4, C6, C8 -/

/-- C4: one simulated drink of `drank ∈ {50, 100, 150}` increases the drops
counter by exactly `Math.floor(drank / 10)`, and no tick — whatever the
amount — ever decreases it. -/
theorem drops_per_tick (s : DashState) (drank : ℤ)
    (h : drank = 50 ∨ drank = 100 ∨ drank = 150) :
    (tick s drank).drops = s.drops + Int.fdiv drank 10 ∧
    ∀ d : ℤ, s.drops ≤ (tick s d).drops := by
  constructor
  · rcases h with h | h | h <;> subst h <;>
      simp only [tick] <;> split_ifs <;> simp_all
  · intro d
    by_cases hd : d > 0
    · have hfd : 0 ≤ Int.fdiv d 10 :=
        Int.fdiv_nonneg (le_of_lt hd) (by norm_num)
      simp only [tick, if_pos hd]
      split_ifs <;> simp <;> linarith
    · simp [tick, hd]

/-- C4 witness: drinking 150 from the connected start state yields 15 drops. -/
theorem drops_per_tick_witness :
    (tick (handleConnect ⟨false, ⟨0, 2500⟩, 750, 0, 1, 0, 0, none⟩).1 150).drops =
      (handleConnect ⟨false, ⟨0, 2500⟩, 750, 0, 1, 0, 0, none⟩).1.drops +
        Int.fdiv 150 10 :=
  (drops_per_tick (handleConnect ⟨false, ⟨0, 2500⟩, 750, 0, 1, 0, 0, none⟩).1
      150 (by norm_num)).1

/-- C6: `handleConnect` is a pure function of the component state: it sets
`isConnected`, emits exactly one toast, and resets the counters to
`hydration = {current: 0, goal: 2500}`, `bottleLevel = 750`, `streak = 5`,
`level = 1`, `xp = 0`, `drops = 0`, for every starting state. -/
theorem handleConnect_resets (s : DashState) :
    (handleConnect s).1.isConnected = true ∧
    (handleConnect s).2 =
      [⟨"NEPHRA Connected", "Ready to track your hydration."⟩] ∧
    (handleConnect s).1.hydration = ⟨0, 2500⟩ ∧
    (handleConnect s).1.bottleLevel = 750 ∧
    (handleConnect s).1.streak = 5 ∧
    (handleConnect s).1.level = 1 ∧
    (handleConnect s).1.xp = 0 ∧
    (handleConnect s).1.drops = 0 := by
  simp [handleConnect]

/-- The clamping invariant of C8. -/
def ClampInv (s : DashState) : Prop :=
  s.hydration.current ≤ s.hydration.goal ∧ 0 ≤ s.bottleLevel

/-- Helper: a tick preserves the clamping invariant (it even establishes it:
`Math.min` against the unchanged goal and `Math.max` with 0). -/
lemma tick_clamp (s : DashState) (d : ℤ) (h : ClampInv s) :
    ClampInv (tick s d) := by
  by_cases hd : d > 0
  · simp only [tick, if_pos hd, ClampInv]
    constructor
    · split_ifs <;> exact min_le_right _ _
    · split_ifs <;> exact le_max_left _ _
  · simpa [tick, hd] using h

/-- C8: after connecting, along every sequence of simulated ticks,
`hydration.current` never exceeds `hydration.goal` and `bottleLevel` never
drops below 0. -/
theorem simulation_clamped (s0 : DashState) (ds : List ℤ) :
    (ds.foldl tick (handleConnect s0).1).hydration.current ≤
      (ds.foldl tick (handleConnect s0).1).hydration.goal ∧
    0 ≤ (ds.foldl tick (handleConnect s0).1).bottleLevel := by
  have h0 : ClampInv (handleConnect s0).1 := by
    constructor <;> simp [handleConnect]
  have : ∀ (l : List ℤ) (s : DashState), ClampInv s → ClampInv (l.foldl tick s) := by
    intro l
    induction l with
    | nil => intro s hs; exact hs
    | cons d l ih => intro s hs; exact ih _ (tick_clamp s d hs)
  exact this ds _ h0

/-! ## Leaderboard mock data and achievements (`src/lib/leaderboard-data.ts`) -/

/-- A user row of `leaderboardData`. -/
structure LeaderboardUser where
  id : ℕ
  rank : ℕ
  name : String
  drops : ℕ
  avatar : String
  streak : ℕ
  level : ℚ
deriving DecidableEq, Repr

/-- The static `leaderboardData` array. -/
def leaderboardData : List LeaderboardUser :=
  [⟨1, 1, "Joan Clarke", 13500, "woman thinking", 42, 28⟩,
   ⟨2, 2, "Alan Turing", 12800, "man with glasses", 35, 26⟩,
   ⟨3, 3, "Grace Hopper", 12000, "woman in navy uniform", 30, 24⟩,
   ⟨4, 4, "David J. Malan", 11500, "man teaching computer science", 28, 23⟩,
   ⟨5, 5, "Ada Lovelace", 11200, "victorian woman writing", 25, 22⟩,
   ⟨6, 6, "Duo", 10800, "green owl mascot", 200, 21⟩,
   ⟨7, 7, "Steve", 10500, "blocky character mining", 18, 20⟩,
   ⟨8, 8, "Rubber Ducky", 10100, "rubber duck with code", 15, 19⟩,
   ⟨9, 9, "Donald Knuth", 9800, "man with organ pipes", 12, 18⟩,
   ⟨10, 10, "Margaret Hamilton", 9500, "woman with stack of books", 10, 17⟩]

/-- An entry of the 28-entry `allAchievementsList` master list (the icon is a
React component and is not modelled). -/
structure AchievementDef where
  id : ℕ
  title : String
deriving DecidableEq, Repr

/-- The master list of all achievements. -/
def allAchievementsList : List AchievementDef :=
  [⟨1, "First Sip"⟩, ⟨2, "Half-Litre Hero"⟩, ⟨3, "Daily Goal Crusher"⟩,
   ⟨4, "Hydration Rookie"⟩, ⟨5, "H2O Pro"⟩, ⟨6, "Liquid Legend"⟩,
   ⟨7, "HydraMaster"⟩, ⟨8, "3-Day Streaker"⟩, ⟨9, "Weekly Winner"⟩,
   ⟨10, "Month of Flow"⟩, ⟨11, "Iron Will"⟩, ⟨12, "365 Days of Clarity"⟩,
   ⟨13, "Perfect Pour"⟩, ⟨14, "Right on Time"⟩, ⟨15, "Speed Sipper"⟩,
   ⟨16, "Even Flow"⟩, ⟨17, "Adaptive Athlete"⟩, ⟨18, "Summer Survivor"⟩,
   ⟨19, "Winter Warrior"⟩, ⟨20, "Festival Flow"⟩, ⟨21, "Boss Battle Victor"⟩,
   ⟨22, "Hydration Marathoner"⟩, ⟨23, "Midnight Mirage"⟩, ⟨24, "Double Hydra"⟩,
   ⟨25, "One-Sip Wonder"⟩, ⟨26, "Quantum Sip"⟩, ⟨27, "Dehydration Slayer"⟩,
   ⟨28, "Bottle Buddy"⟩]

/-- An achievement as stored per user: the master entry plus the computed
`achieved` flag. -/
structure UserAchievement where
  id : ℕ
  title : String
  achieved : Bool
deriving DecidableEq, Repr

/-- The callback body of the `reduce`: the master list mapped with
`achieved: (ach.id * 3 + user.id * 5) % 10 > 3`. -/
def userAchievements (userId : ℕ) : List UserAchievement :=
  allAchievementsList.map (fun ach =>
    ⟨ach.id, ach.title, decide ((ach.id * 3 + userId * 5) % 10 > 3)⟩)

/-- `allAchievements`: the record built by reducing over `leaderboardData`,
modelled as the association list in insertion order. -/
def allAchievements : List (ℕ × List UserAchievement) :=
  leaderboardData.foldl (fun acc user => acc ++ [(user.id, userAchievements user.id)]) []

/-- The record access `allAchievements[id] || []` (as used by the profile
page). -/
def lookupAchievements (uid : ℕ) : List UserAchievement :=
  ((allAchievements.find? (fun p => p.1 == uid)).map Prod.snd).getD []

/-! ### Claim C7 -/

/-- C7: the achievement data is static and deterministic. For every user of
`leaderboardData` and every entry of the 28-entry master list,
`allAchievements[user.id]` contains that entry with
`achieved = ((ach.id * 3 + user.id * 5) % 10 > 3)`; being a pure definition,
every evaluation yields this same value. -/
theorem achievements_static :
    ∀ u ∈ leaderboardData, ∀ a ∈ allAchievementsList,
      (⟨a.id, a.title, decide ((a.id * 3 + u.id * 5) % 10 > 3)⟩ : UserAchievement)
        ∈ lookupAchievements u.id := by
  decide

/-- C7 witness: user 1 and achievement 1 (`(1*3 + 1*5) % 10 = 8 > 3`, so it
is achieved). -/
theorem achievements_static_witness :
    (⟨1, "First Sip", true⟩ : UserAchievement) ∈ lookupAchievements 1 := by
  have h := achievements_static ⟨1, 1, "Joan Clarke", 13500, "woman thinking", 42, 28⟩
    (by decide) ⟨1, "First Sip"⟩ (by decide)
  simpa using h

/-! ## Server action `getHydrationRecommendationAction`
(`src/app/profile/actions.ts`) -/

/-- A JavaScript value as it can arrive in the profile form data: a string,
a number, or `undefined`. -/
inductive JSVal where
  | str (s : String)
  | num (q : ℚ)
  | undef
deriving DecidableEq, Repr

/-- The raw `data` argument of the action: one `JSVal` per `ProfileSchema`
field. -/
structure ProfileFormData where
  name : JSVal
  age : JSVal
  gender : JSVal
  weight : JSVal
  healthConditions : JSVal
deriving DecidableEq, Repr

/-- A validated profile, `z.infer<typeof ProfileSchema>`. -/
structure Profile where
  name : String
  age : ℚ
  gender : String
  weight : ℚ
  healthConditions : Option String
deriving DecidableEq, Repr

/-- A Zod validation failure (thrown by `.parse`). -/
inductive ZodError where
  | invalidType
deriving DecidableEq, Repr

/-- `z.string().parse`. -/
def zodString : JSVal → Except ZodError String
  | .str s => .ok s
  | _ => .error .invalidType

/-- `z.number().parse`. -/
def zodNumber : JSVal → Except ZodError ℚ
  | .num q => .ok q
  | _ => .error .invalidType

/-- `z.string().optional().parse`. -/
def zodOptionalString : JSVal → Except ZodError (Option String)
  | .str s => .ok (some s)
  | .undef => .ok none
  | _ => .error .invalidType

/-- `ProfileSchema.parse(data)`: validate each field, throwing (`Except.error`)
on the first failure. -/
def profileSchemaParse (d : ProfileFormData) : Except ZodError Profile := do
  let name ← zodString d.name
  let age ← zodNumber d.age
  let gender ← zodString d.gender
  let weight ← zodNumber d.weight
  let hc ← zodOptionalString d.healthConditions
  return ⟨name, age, gender, weight, hc⟩

/-- The `mockHistoricalData` JSON string built by the action. -/
def mockHistoricalData : String :=
  "[\x7b\x22timestamp\x22:\x222024-07-28T08:00:00Z\x22,\x22amount\x22:250\x7d,\x7b\x22timestamp\x22:\x222024-07-28T10:30:00Z\x22,\x22amount\x22:300\x7d,\x7b\x22timestamp\x22:\x222024-07-28T13:00:00Z\x22,\x22amount\x22:200\x7d]"

/-- The argument of the `hydrationRecommendations` flow call:
`{ ...validatedData, historicalData: mockHistoricalData }`. -/
structure FlowInput where
  name : String
  age : ℚ
  gender : String
  weight : ℚ
  healthConditions : Option String
  historicalData : String
deriving DecidableEq, Repr

/-- The spread `{ ...validatedData, historicalData: mockHistoricalData }`. -/
def mkFlowInput (v : Profile) : FlowInput :=
  ⟨v.name, v.age, v.gender, v.weight, v.healthConditions, mockHistoricalData⟩

/-- The flow's output schema, `HydrationRecommendationsOutputSchema`. -/
structure HydrationRecommendationsOutput where
  goal_ml : ℚ
  alert_interval_minutes : ℚ
deriving DecidableEq, Repr

/-- `getHydrationRecommendationAction`, parametrized by the outcome of the
remote `hydrationRecommendations` flow call (`flow` returns `Except.error`
when the awaited call throws). The `try`/`catch` returning `null` becomes:
any `Except.error` from validation or from the flow yields `none`; otherwise
the flow's result is returned unchanged. -/
def getHydrationRecommendationAction
    (flow : FlowInput → Except Unit HydrationRecommendationsOutput)
    (data : ProfileFormData) : Option HydrationRecommendationsOutput :=
  match profileSchemaParse data with
  | .error _ => none
  | .ok v =>
      match flow (mkFlowInput v) with
      | .error _ => none
      | .ok r => some r

/-! ### Claim C5 -/

/-- C5: the action's failure handling is a try/catch returning null. For
every flow outcome function and every input, the action returns `none`
exactly when `ProfileSchema.parse` throws or the flow call throws, and
otherwise returns the flow's result unchanged. -/
theorem action_null_iff
    (flow : FlowInput → Except Unit HydrationRecommendationsOutput)
    (data : ProfileFormData) :
    (getHydrationRecommendationAction flow data = none ↔
      (∃ e, profileSchemaParse data = .error e) ∨
      (∃ v, profileSchemaParse data = .ok v ∧
        flow (mkFlowInput v) = .error ())) ∧
    (∀ v r, profileSchemaParse data = .ok v → flow (mkFlowInput v) = .ok r →
      getHydrationRecommendationAction flow data = some r) := by
  constructor
  · constructor
    · intro h
      cases hp : profileSchemaParse data with
      | error e => exact .inl ⟨e, rfl⟩
      | ok v =>
          cases hf : flow (mkFlowInput v) with
          | error e => exact .inr ⟨v, rfl, by cases e; rw [hf]⟩
          | ok r => simp [getHydrationRecommendationAction, hp, hf] at h
    · rintro (⟨e, he⟩ | ⟨v, hv, hf⟩)
      · simp [getHydrationRecommendationAction, he]
      · simp [getHydrationRecommendationAction, hv, hf]
  · intro v r hv hf
    simp [getHydrationRecommendationAction, hv, hf]

/-- C5 witness: with a well-typed profile and a flow that returns a
recommendation, the action passes the result through unchanged. -/
theorem action_null_iff_witness :
    getHydrationRecommendationAction (fun _ => .ok ⟨2500, 60⟩)
      ⟨.str "Joan", .num 30, .str "female", .num 60, .undef⟩ = some ⟨2500, 60⟩ :=
  (action_null_iff (fun _ => .ok ⟨2500, 60⟩)
      ⟨.str "Joan", .num 30, .str "female", .num 60, .undef⟩).2
    ⟨"Joan", 30, "female", 60, none⟩ ⟨2500, 60⟩ rfl rfl

end Nephra
